import Mathlib

/-!
Verification of the EdgeRouter client-presence integration.

Shallow embedding of `custom_components/edgerouter/edgerouter_api.py`,
`__init__.py`, `device_tracker.py` and `sensor.py`.  Python strings are
modelled as Lean `String` (operating on `String.data`, i.e. lists of
characters, which matches Python's code-point indexing for the ASCII
router output the parsers consume); timestamps are modelled as `Int`
(Python `datetime` values are totally ordered and subtracted to signed
deltas); Python `dict` is modelled as an insertion-ordered association
list with unique keys.
-/

namespace EdgeRouter

/-- Python whitespace set used by `str.split()` and `str.strip()`
(ASCII fragment, which is all the router output contains). -/
def isPySpace (c : Char) : Bool :=
  c = ' ' || c = '\t' || c = '\n' || c = '\r' || c = '\x0b' || c = '\x0c'

/-- Model of Python `str.strip()`. -/
def pyStrip (s : String) : String :=
  String.mk (((s.data.dropWhile isPySpace).reverse.dropWhile isPySpace).reverse)

/-- Accumulating worker for `pySplit`. -/
def splitWsAux : List Char → List Char → List String
  | [], acc => if acc = [] then [] else [String.mk acc.reverse]
  | c :: cs, acc =>
    if isPySpace c then
      if acc = [] then splitWsAux cs [] else String.mk acc.reverse :: splitWsAux cs []
    else splitWsAux cs (c :: acc)

/-- Model of Python `str.split()` with no argument: split on runs of
whitespace, never producing empty tokens. -/
def pySplit (s : String) : List String := splitWsAux s.data []

/-- Accumulating worker for `pyLines`. -/
def splitNlAux : List Char → List Char → List String
  | [], acc => [String.mk acc.reverse]
  | c :: cs, acc =>
    if c = '\n' then String.mk acc.reverse :: splitNlAux cs []
    else splitNlAux cs (c :: acc)

/-- Model of Python `output.strip().split("\n")`, the line splitter both
table fetchers apply to the raw command output. -/
def pyLines (s : String) : List String := splitNlAux (pyStrip s).data []

/-- Does `pat` occur as a prefix of `s` (character lists)? -/
def matchesHere : List Char → List Char → Bool
  | _, [] => true
  | [], _ :: _ => false
  | c :: cs, p :: ps => c = p && matchesHere cs ps

/-- Does `pat` occur somewhere in `s` (character lists)?  Models Python
`pat in s`. -/
def occursIn : List Char → List Char → Bool
  | [], pat => matchesHere [] pat
  | c :: cs, pat => matchesHere (c :: cs) pat || occursIn cs pat

/-- Model of Python substring containment `pat in s`. -/
def hasSubstr (s pat : String) : Bool := occursIn s.data pat.data

/-- Hexadecimal digit as in the character class `[0-9a-fA-F]`. -/
def isHexCh (c : Char) : Bool :=
  (('0' ≤ c) && (c ≤ '9')) || (('a' ≤ c) && (c ≤ 'f')) || (('A' ≤ c) && (c ≤ 'F'))

/-- Separator as in the character class `[:-]`. -/
def isSepCh (c : Char) : Bool := c = ':' || c = '-'

/-- Try to match the MAC regular expression
`([0-9a-fA-F]{2}[:-]){5}[0-9a-fA-F]{2}` (a fixed-width, 17-character
pattern) at the head of a character list; on success return the matched
characters and the rest of the list after the match. -/
def macHere : List Char → Option (List Char × List Char)
  | a :: b :: s1 :: c :: d :: s2 :: e :: f :: s3 :: g :: h :: s4 :: i :: j :: s5 :: k :: l :: rest =>
    if isHexCh a && isHexCh b && isSepCh s1 && isHexCh c && isHexCh d && isSepCh s2 &&
       isHexCh e && isHexCh f && isSepCh s3 && isHexCh g && isHexCh h && isSepCh s4 &&
       isHexCh i && isHexCh j && isSepCh s5 && isHexCh k && isHexCh l then
      some ([a, b, s1, c, d, s2, e, f, s3, g, h, s4, i, j, s5, k, l], rest)
    else none
  | _ => none

/-- Leftmost-match scan of the MAC pattern, as `re.search` performs. -/
def macScan : List Char → Option (List Char × List Char)
  | [] => none
  | c :: cs =>
    match macHere (c :: cs) with
    | some r => some r
    | none => macScan cs

/-- Normalisation applied to a matched MAC: `.lower().replace("-", ":")`. -/
def normMacCh (c : Char) : Char := if c = '-' then ':' else c.toLower

/-- Search a line for the MAC pattern; on success return the normalised
(lowercase, colon-delimited) MAC together with the text after the match
(Python `line[mac_match.end():]`). -/
def macFind (s : String) : Option (String × String) :=
  (macScan s.data).map (fun r => (String.mk (r.1.map normMacCh), String.mk r.2))

/-- Try to match the date regular expression `\d{4}/\d{2}/\d{2}` at the
head of a character list. -/
def dateHere : List Char → Bool
  | a :: b :: c :: d :: s1 :: e :: f :: s2 :: g :: h :: _ =>
    a.isDigit && b.isDigit && c.isDigit && d.isDigit && s1 = '/' &&
    e.isDigit && f.isDigit && s2 = '/' && g.isDigit && h.isDigit
  | _ => false

/-- Leftmost `re.search` of the date pattern followed by the slice
`remaining[m.start() : m.start() + 19]` the lease parser takes; `none`
when no date occurs. -/
def dateSliceFrom : List Char → Option (List Char)
  | [] => none
  | c :: cs => if dateHere (c :: cs) then some ((c :: cs).take 19) else dateSliceFrom cs

/-- One row of the parsed ARP table (`get_arp_table` output dict). -/
structure ArpRow where
  ip : String
  mac : String
  interface : String
  deriving DecidableEq

/-- One row of the parsed DHCP lease table (`get_dhcp_leases` output dict). -/
structure LeaseRow where
  ip : String
  mac : String
  hostname : Option String
  expires : Option String
  deriving DecidableEq

/-- Line loop of `EdgeRouterAPI.get_arp_table` (edgerouter_api.py lines
139-162), translated clause by clause: skip empty lines and lines
containing `"Address"` or `"---"`; require at least four whitespace
tokens; search the line for the MAC pattern; emit a row with the first
token as ip, the normalised MAC, and the last token as interface only
when the line has more than four tokens. -/
def arpLoop : List String → List ArpRow
  | [] => []
  | line :: rest =>
    if line = "" || hasSubstr line "Address" || hasSubstr line "---" then arpLoop rest
    else
      if 4 ≤ (pySplit line).length then
        match macFind line with
        | some m =>
          { ip := (pySplit line).headD "",
            mac := m.1,
            interface := if 4 < (pySplit line).length then (pySplit line).getLastD "" else "" } ::
            arpLoop rest
        | none => arpLoop rest
      else arpLoop rest

/-- `EdgeRouterAPI.get_arp_table` applied to the raw text returned by the
remote command (the `_exec_command` call itself is modelled at the
`get_all_clients` boundary). -/
def get_arp_table (output : String) : List ArpRow := arpLoop (pyLines output)

/-- Body executed by `EdgeRouterAPI.get_dhcp_leases` for one data line
(edgerouter_api.py lines 188-218): at least three whitespace tokens and a
MAC match are required; the remainder after the MAC match is stripped,
the hostname is its last token when it has at least three tokens and that
token is not `"?"`, and the expiration is the 19-character slice starting
at the first `YYYY/MM/DD` date match in the remainder. -/
def leaseOfLine (line : String) : Option LeaseRow :=
  if 3 ≤ (pySplit line).length then
    match macFind line with
    | some m =>
      some { ip := (pySplit line).headD "",
             mac := m.1,
             hostname :=
               if 3 ≤ (pySplit (pyStrip m.2)).length then
                 if (pySplit (pyStrip m.2)).getLastD "" ≠ "?" then
                   some ((pySplit (pyStrip m.2)).getLastD "")
                 else none
               else none,
             expires := (dateSliceFrom (pyStrip m.2).data).map String.mk }
    | none => none
  else none

/-- Line loop of `EdgeRouterAPI.get_dhcp_leases` (edgerouter_api.py lines
176-218) with its `in_data` flag: blank lines are skipped; a line
containing `"IP address"` or `"---"` sets the flag and is skipped; before
the flag is set every line is skipped; afterwards each line is fed to the
per-line lease extraction. -/
def dhcpLoop : Bool → List String → List LeaseRow
  | _, [] => []
  | inData, line :: rest =>
    if pyStrip line = "" then dhcpLoop inData rest
    else if hasSubstr line "IP address" || hasSubstr line "---" then dhcpLoop true rest
    else if inData then
      match leaseOfLine line with
      | some r => r :: dhcpLoop true rest
      | none => dhcpLoop true rest
    else dhcpLoop inData rest

/-- `EdgeRouterAPI.get_dhcp_leases` applied to the raw command output. -/
def get_dhcp_leases (output : String) : List LeaseRow := dhcpLoop false (pyLines output)

/-- The `ClientInfo` dataclass (edgerouter_api.py lines 23-34).  The
Python field `last_seen` has `default_factory=datetime.now`: every record
construction stamps the wall clock at that moment.  That construction
stamp is passed in explicitly (`cnow` below) wherever a record is built,
so it can be distinguished from the cycle timestamp `now` captured at the
top of `get_all_clients`. -/
structure ClientInfo where
  mac : String
  ip : Option String := none
  hostname : Option String := none
  interface : Option String := none
  lease_expires : Option String := none
  in_arp : Bool := false
  has_dhcp_lease : Bool := false
  last_seen : Int
  deriving DecidableEq

/-- The `ClientInfo.name` property (edgerouter_api.py lines 36-43):
Python truthiness makes both `None` and the empty string fall through. -/
def ClientInfo.name (c : ClientInfo) : String :=
  match c.hostname with
  | some h =>
    if h ≠ "" && h ≠ "?" then h
    else
      match c.ip with
      | some i => if i ≠ "" then i else c.mac
      | none => c.mac
  | none =>
    match c.ip with
    | some i => if i ≠ "" then i else c.mac
    | none => c.mac

/-- The `clients` dict of `get_all_clients`: insertion-ordered mapping
from MAC to `ClientInfo`. -/
abbrev Registry := List (String × ClientInfo)

/-- Dict lookup `clients.get(mac)` / `mac in clients`. -/
def regFind : Registry → String → Option ClientInfo
  | [], _ => none
  | (k, v) :: r, mac => if k = mac then some v else regFind r mac

/-- In-place field mutation `clients[mac].field = ...`: rewrite the entry
stored under `mac`, leaving every other entry unchanged. -/
def regModify : Registry → String → (ClientInfo → ClientInfo) → Registry
  | [], _, _ => []
  | (k, v) :: r, mac, f => if k = mac then (k, f v) :: r else (k, v) :: regModify r mac f

/-- Body of the ARP loop of `get_all_clients` (edgerouter_api.py lines
231-238) for one ARP entry: create the record if absent (stamping the
construction time `cnow`), then overwrite ip, interface, `in_arp` and
`last_seen := now`. -/
def stepArp (now cnow : Int) (reg : Registry) (e : ArpRow) : Registry :=
  let reg' :=
    match regFind reg e.mac with
    | some _ => reg
    | none => reg ++ [(e.mac, { mac := e.mac, last_seen := cnow })]
  regModify reg' e.mac fun c =>
    { c with ip := some e.ip, interface := some e.interface, in_arp := true, last_seen := now }

/-- Guarded liveness stamp at the end of the DHCP loop body
(edgerouter_api.py lines 253-254): `last_seen` is refreshed only when the
record under `mac` is already marked `in_arp`.  The following `stepDhcp`
is the loop body for one lease (edgerouter_api.py lines 245-254): create
the record with the lease's ip only if the MAC is new; always overwrite
hostname, lease expiration and `has_dhcp_lease`; then the guarded
stamp. -/
def stampIfArp (now : Int) (reg : Registry) (mac : String) : Registry :=
  match regFind reg mac with
  | some c => if c.in_arp then regModify reg mac (fun c => { c with last_seen := now }) else reg
  | none => reg

/-- Body of the DHCP loop of `get_all_clients` (continued): the final
`stampIfArp` is the guarded `last_seen` refresh. -/
def stepDhcp (now cnow : Int) (reg : Registry) (l : LeaseRow) : Registry :=
  let reg' :=
    match regFind reg l.mac with
    | some _ => reg
    | none => reg ++ [(l.mac, { mac := l.mac, ip := some l.ip, last_seen := cnow })]
  let reg'' := regModify reg' l.mac fun c =>
    { c with hostname := l.hostname, lease_expires := l.expires, has_dhcp_lease := true }
  stampIfArp now reg'' l.mac

/-- The merge performed by `get_all_clients` on the two fetched row
lists: the ARP pass over an empty dict followed by the DHCP pass. -/
def mergeClients (now cnow : Int) (arp : List ArpRow) (dhcp : List LeaseRow) : Registry :=
  dhcp.foldl (stepDhcp now cnow) (arp.foldl (stepArp now cnow) [])

/-- The two typed failures `_exec_command` can raise
(`EdgeRouterAuthenticationError` is a subclass of
`EdgeRouterConnectionError`, itself a subclass of `Exception`). -/
inductive ChannelError
  | auth
  | conn
  deriving DecidableEq

/-- `EdgeRouterAPI.get_all_clients` (edgerouter_api.py lines 223-259).
Each of the two table fetches is modelled by an `Except` value: the raw
command output on success, a `ChannelError` when `_exec_command` raised.
In the source each fetch is wrapped in `try: ... except Exception as
err: _LOGGER.error(...)`, which catches `ChannelError`s as well, so a
failed fetch simply contributes zero rows and the function always returns
a registry. -/
def get_all_clients (now cnow : Int)
    (arpFetch dhcpFetch : Except ChannelError String) : Registry :=
  let arpRows := match arpFetch with
    | .ok out => get_arp_table out
    | .error _ => []
  let dhcpRows := match dhcpFetch with
    | .ok out => get_dhcp_leases out
    | .error _ => []
  mergeClients now cnow arpRows dhcpRows

/-- Result type of the coordinator's update callback: either fresh data
or an `UpdateFailed` signalled to consumers. -/
inductive UpdateResult
  | ok (reg : Registry)
  | failed
  deriving DecidableEq

/-- `async_update_data` (`__init__.py` lines 43-48).  The source wraps the
`get_all_clients` call in `try: ... except EdgeRouterConnectionError:
raise UpdateFailed(...)`, but `get_all_clients` already absorbs every
exception from both fetches internally (edgerouter_api.py lines 239-240
and 255-256), so the handler can never fire and the update always
succeeds with whatever registry was built. -/
def async_update_data (now cnow : Int)
    (arpFetch dhcpFetch : Except ChannelError String) : UpdateResult :=
  UpdateResult.ok (get_all_clients now cnow arpFetch dhcpFetch)

/-- `EdgeRouterDeviceTracker.is_connected` (device_tracker.py lines
125-137).  `client?` is the current coordinator snapshot's record for the
tracker's MAC (`None` when absent), `lastSeen?` is the tracker's carried
`self._last_seen`, `grace` is `consider_home` in seconds, `now` is the
wall clock at the query.  A present record with `in_arp` returns true
immediately; otherwise the grace window is consulted: a recorded last
seen, a strictly positive window, and `now - lastSeen < grace`. -/
def is_connected (client? : Option ClientInfo) (lastSeen? : Option Int)
    (grace now : Int) : Bool :=
  match client? with
  | some c =>
    if c.in_arp then true
    else
      match lastSeen? with
      | some t => if 0 < grace then decide (now - t < grace) else false
      | none => false
  | none =>
    match lastSeen? with
    | some t => if 0 < grace then decide (now - t < grace) else false
    | none => false

/-- Seeding of the tracker's carried `self._last_seen` at entity
construction (device_tracker.py line 100): taken unconditionally from the
record, whether or not the record was ever in ARP. -/
def trackerInitLastSeen (client : ClientInfo) : Option Int := some client.last_seen

/-- Connection-type classification from
`EdgeRouterDeviceTracker.extra_state_attributes` (device_tracker.py lines
182-187). -/
def connectionType (c : ClientInfo) : Option String :=
  if c.in_arp && c.has_dhcp_lease then some "dhcp"
  else if c.in_arp then some "static"
  else if c.has_dhcp_lease then some "dhcp_inactive"
  else none

/-- `EdgeRouterConnectedClientsSensor.native_value` (sensor.py lines
78-85): the number of registry records currently in the ARP table. -/
def connectedClientsCount (reg : Registry) : Nat :=
  (reg.filter fun p => p.2.in_arp).length

/-- Amended specification of one ARP data line, following the corrected
claim's words: a line that is empty or contains `"Address"` or `"---"` is
skipped; a line with at least four whitespace tokens that contains a
recognizable MAC pattern yields exactly one row whose ip is the first
token, whose mac is the normalised match and whose interface is the last
token exactly when the line has more than four tokens; any other line is
discarded. -/
def arpRowSpec (line : String) : Option ArpRow :=
  if line = "" || hasSubstr line "Address" || hasSubstr line "---" then none
  else if 4 ≤ (pySplit line).length then
    (macFind line).map fun m =>
      { ip := (pySplit line).headD "",
        mac := m.1,
        interface := if 4 < (pySplit line).length then (pySplit line).getLastD "" else "" }
  else none

/-- Amended specification of the whole ARP parse: one optional row per
line, in order. -/
def arpRowsSpec (output : String) : List ArpRow :=
  (pyLines output).filterMap arpRowSpec

/-- A DHCP marker line per the amended claim: a line containing the
column label `"IP address"` or a dashed rule `"---"`. -/
def isDhcpMarker (line : String) : Bool :=
  hasSubstr line "IP address" || hasSubstr line "---"

/-- Preamble discard per the amended claim: blank lines are skipped and
every line up to and including the first marker line is dropped; when no
marker occurs nothing remains. -/
def dhcpPreamble : List String → List String
  | [] => []
  | l :: ls =>
    if pyStrip l = "" then dhcpPreamble ls
    else if isDhcpMarker l then ls
    else dhcpPreamble ls

/-- Data-row extraction per the amended claim: after the preamble, blank
lines and marker lines are skipped and every other line yields a lease
row exactly when it has at least three whitespace tokens and contains a
recognizable MAC. -/
def dhcpDataRows : List String → List LeaseRow
  | [] => []
  | l :: ls =>
    if pyStrip l = "" then dhcpDataRows ls
    else if isDhcpMarker l then dhcpDataRows ls
    else
      match leaseOfLine l with
      | some r => r :: dhcpDataRows ls
      | none => dhcpDataRows ls

/-- Amended specification of the whole DHCP lease parse. -/
def dhcpRowsSpec (output : String) : List LeaseRow :=
  dhcpDataRows (dhcpPreamble (pyLines output))

/-- First ARP row carrying a given MAC. -/
def firstArpFor : List ArpRow → String → Option ArpRow
  | [], _ => none
  | e :: es, mac => if e.mac = mac then some e else firstArpFor es mac

/-- Last ARP row carrying a given MAC (the one whose fields survive the
overwriting ARP pass). -/
def lastArpFor (es : List ArpRow) (mac : String) : Option ArpRow :=
  firstArpFor es.reverse mac

/-- First lease row carrying a given MAC (the one whose ip a DHCP-only
record keeps). -/
def firstLeaseFor : List LeaseRow → String → Option LeaseRow
  | [], _ => none
  | l :: ls, mac => if l.mac = mac then some l else firstLeaseFor ls mac

/-- Last lease row carrying a given MAC (the one whose hostname and
expiration survive the overwriting DHCP pass). -/
def lastLeaseFor (ls : List LeaseRow) (mac : String) : Option LeaseRow :=
  firstLeaseFor ls.reverse mac

/-- Shape of a registry record after the ARP pass for a MAC whose last
ARP row is `a`. -/
def arpShape (now : Int) (mac : String) (a : ArpRow) : ClientInfo :=
  { mac := mac, ip := some a.ip, interface := some a.interface,
    in_arp := true, last_seen := now }

/-- Closed-form description of the record `get_all_clients` ends up
storing under a given MAC, by provenance case. -/
def mergedModel (now cnow : Int) (arp : List ArpRow) (dhcp : List LeaseRow)
    (mac : String) : Option ClientInfo :=
  match lastArpFor arp mac, lastLeaseFor dhcp mac with
  | none, none => none
  | some a, none => some (arpShape now mac a)
  | none, some l =>
    some { mac := mac, ip := (firstLeaseFor dhcp mac).map LeaseRow.ip,
           hostname := l.hostname, lease_expires := l.expires,
           has_dhcp_lease := true, last_seen := cnow }
  | some a, some l =>
    some { mac := mac, ip := some a.ip, interface := some a.interface,
           hostname := l.hostname, lease_expires := l.expires,
           in_arp := true, has_dhcp_lease := true, last_seen := now }

/-- Concrete ARP row used by witness statements. -/
def arpRowA : ArpRow := ⟨"1.2.3.4", "aa:bb:cc:dd:ee:ff", "eth0"⟩

/-- Concrete lease row (same MAC as `arpRowA`) used by witness
statements. -/
def leaseRowA : LeaseRow :=
  ⟨"5.6.7.8", "aa:bb:cc:dd:ee:ff", some "myhost", some "2024/01/01 12:00:00"⟩

/-- Concrete lease row with a MAC absent from `arpRowA`, used by witness
statements. -/
def leaseRowB : LeaseRow := ⟨"5.6.7.8", "11:22:33:44:55:66", some "other", none⟩

/-- Record that merging `arpRowA` with `leaseRowA` at cycle time 5 must
produce. -/
def clientBoth : ClientInfo :=
  { mac := "aa:bb:cc:dd:ee:ff", ip := some "1.2.3.4", hostname := some "myhost",
    interface := some "eth0", lease_expires := some "2024/01/01 12:00:00",
    in_arp := true, has_dhcp_lease := true, last_seen := 5 }

/-- Record that merging `leaseRowB` alone at construction time 51 must
produce. -/
def clientDhcpOnly : ClientInfo :=
  { mac := "11:22:33:44:55:66", ip := some "5.6.7.8", hostname := some "other",
    has_dhcp_lease := true, last_seen := 51 }

/-- Concrete DHCP lease line used by witness statements. -/
def leaseLineA : String := "192.168.1.50 aa:bb:cc:dd:ee:ff 2024/01/01 12:00:00 pool0 myhost"

/-- Remainder of `leaseLineA` after its MAC match. -/
def leaseLineARest : String := " 2024/01/01 12:00:00 pool0 myhost"

/-- Lease row that parsing `leaseLineA` must produce. -/
def leaseLineARow : LeaseRow :=
  { ip := "192.168.1.50", mac := "aa:bb:cc:dd:ee:ff",
    hostname := some "myhost", expires := some "2024/01/01 12:00:00" }

/-- Record with a sentinel hostname, used by witness statements. -/
def clientSentinel : ClientInfo :=
  { mac := "aa", hostname := some "?", ip := some "9.9.9.9", last_seen := 0 }

theorem regFind_append (reg : Registry) (k : String) (c : ClientInfo) (mac : String) :
    regFind (reg ++ [(k, c)]) mac =
      match regFind reg mac with
      | some v => some v
      | none => if k = mac then some c else none := by
  induction reg with
  | nil => simp [regFind]
  | cons p r ih =>
    obtain ⟨k', v'⟩ := p
    by_cases h : k' = mac <;> simp [regFind, h, ih]

theorem regFind_modify (reg : Registry) (k : String) (f : ClientInfo → ClientInfo)
    (mac : String) :
    regFind (regModify reg k f) mac =
      if k = mac then (regFind reg mac).map f else regFind reg mac := by
  induction reg with
  | nil => simp [regFind, regModify]
  | cons p r ih =>
    obtain ⟨k', v'⟩ := p
    by_cases hk : k' = k
    · subst hk
      by_cases hm : k' = mac <;> simp [regFind, regModify, hm]
    · by_cases hm : k' = mac
      · subst hm
        have hkm : k ≠ k' := fun hh => hk hh.symm
        simp [regFind, regModify, hk, hkm]
      · simp [regFind, regModify, hk, hm, ih]

theorem regFind_append_ne (reg : Registry) (k : String) (c : ClientInfo) (mac : String)
    (h : k ≠ mac) :
    regFind (reg ++ [(k, c)]) mac = regFind reg mac := by
  rw [regFind_append]
  cases hm : regFind reg mac <;> simp [h]

theorem regFind_modify_ne (reg : Registry) (k : String) (f : ClientInfo → ClientInfo)
    (mac : String) (h : k ≠ mac) :
    regFind (regModify reg k f) mac = regFind reg mac := by
  rw [regFind_modify]
  simp [h]

theorem stampIfArp_find_ne (now : Int) (reg : Registry) (k mac : String)
    (h : k ≠ mac) :
    regFind (stampIfArp now reg k) mac = regFind reg mac := by
  unfold stampIfArp
  cases hf : regFind reg k with
  | none => rfl
  | some c =>
    by_cases hc : c.in_arp <;> simp [hc, regFind_modify_ne _ _ _ _ h]

theorem stepArp_find_ne (now cnow : Int) (reg : Registry) (e : ArpRow) (mac : String)
    (h : e.mac ≠ mac) :
    regFind (stepArp now cnow reg e) mac = regFind reg mac := by
  unfold stepArp
  cases hf : regFind reg e.mac <;>
    simp [regFind_modify_ne _ _ _ _ h, regFind_append_ne _ _ _ _ h]

theorem stepArp_find_eq_none (now cnow : Int) (reg : Registry) (e : ArpRow)
    (h : regFind reg e.mac = none) :
    regFind (stepArp now cnow reg e) e.mac = some (arpShape now e.mac e) := by
  unfold stepArp
  simp [h, regFind_modify, regFind_append, arpShape]

theorem stepArp_find_eq_some (now cnow : Int) (reg : Registry) (e : ArpRow)
    (c : ClientInfo) (h : regFind reg e.mac = some c) :
    regFind (stepArp now cnow reg e) e.mac =
      some { c with ip := some e.ip, interface := some e.interface,
                    in_arp := true, last_seen := now } := by
  unfold stepArp
  simp [h, regFind_modify]

theorem stepDhcp_find_ne (now cnow : Int) (reg : Registry) (l : LeaseRow) (mac : String)
    (h : l.mac ≠ mac) :
    regFind (stepDhcp now cnow reg l) mac = regFind reg mac := by
  unfold stepDhcp
  cases hf : regFind reg l.mac <;>
    simp [stampIfArp_find_ne _ _ _ _ h, regFind_modify_ne _ _ _ _ h,
      regFind_append_ne _ _ _ _ h]

theorem stepDhcp_find_eq_none (now cnow : Int) (reg : Registry) (l : LeaseRow)
    (h : regFind reg l.mac = none) :
    regFind (stepDhcp now cnow reg l) l.mac =
      some { mac := l.mac, ip := some l.ip, hostname := l.hostname,
             lease_expires := l.expires, has_dhcp_lease := true, last_seen := cnow } := by
  unfold stepDhcp stampIfArp
  simp [h, regFind_modify, regFind_append]

theorem stepDhcp_find_eq_some (now cnow : Int) (reg : Registry) (l : LeaseRow)
    (c : ClientInfo) (h : regFind reg l.mac = some c) :
    regFind (stepDhcp now cnow reg l) l.mac =
      some (if c.in_arp then
              { c with hostname := l.hostname, lease_expires := l.expires,
                       has_dhcp_lease := true, last_seen := now }
            else
              { c with hostname := l.hostname, lease_expires := l.expires,
                       has_dhcp_lease := true }) := by
  unfold stepDhcp stampIfArp
  by_cases ha : c.in_arp <;> simp [h, regFind_modify, ha]

theorem lastArpFor_append (xs : List ArpRow) (x : ArpRow) (mac : String) :
    lastArpFor (xs ++ [x]) mac = if x.mac = mac then some x else lastArpFor xs mac := by
  simp [lastArpFor, List.reverse_append, firstArpFor]

theorem lastLeaseFor_append (xs : List LeaseRow) (x : LeaseRow) (mac : String) :
    lastLeaseFor (xs ++ [x]) mac = if x.mac = mac then some x else lastLeaseFor xs mac := by
  simp [lastLeaseFor, List.reverse_append, firstLeaseFor]

theorem firstLeaseFor_append_some (xs : List LeaseRow) (x : LeaseRow) (mac : String)
    (r : LeaseRow) (h : firstLeaseFor xs mac = some r) :
    firstLeaseFor (xs ++ [x]) mac = some r := by
  induction xs with
  | nil => simp [firstLeaseFor] at h
  | cons y ys ih =>
    by_cases hy : y.mac = mac <;> simp_all [firstLeaseFor, hy]

theorem firstLeaseFor_append_none (xs : List LeaseRow) (x : LeaseRow) (mac : String)
    (h : firstLeaseFor xs mac = none) :
    firstLeaseFor (xs ++ [x]) mac = if x.mac = mac then some x else none := by
  induction xs with
  | nil => simp [firstLeaseFor]
  | cons y ys ih =>
    by_cases hy : y.mac = mac <;> simp_all [firstLeaseFor, hy]

theorem firstLeaseFor_eq_none_iff (xs : List LeaseRow) (mac : String) :
    firstLeaseFor xs mac = none ↔ ∀ l ∈ xs, l.mac ≠ mac := by
  induction xs with
  | nil => simp [firstLeaseFor]
  | cons y ys ih =>
    by_cases hy : y.mac = mac <;> simp [firstLeaseFor, hy, ih]

theorem lastLeaseFor_eq_none_iff (xs : List LeaseRow) (mac : String) :
    lastLeaseFor xs mac = none ↔ ∀ l ∈ xs, l.mac ≠ mac := by
  rw [lastLeaseFor, firstLeaseFor_eq_none_iff]
  constructor
  · intro h l hl
    exact h l (by simpa using hl)
  · intro h l hl
    exact h l (by simpa using hl)

theorem firstArpFor_eq_none_iff (xs : List ArpRow) (mac : String) :
    firstArpFor xs mac = none ↔ ∀ e ∈ xs, e.mac ≠ mac := by
  induction xs with
  | nil => simp [firstArpFor]
  | cons y ys ih =>
    by_cases hy : y.mac = mac <;> simp [firstArpFor, hy, ih]

theorem lastArpFor_eq_none_iff (xs : List ArpRow) (mac : String) :
    lastArpFor xs mac = none ↔ ∀ e ∈ xs, e.mac ≠ mac := by
  rw [lastArpFor, firstArpFor_eq_none_iff]
  constructor
  · intro h e he
    exact h e (by simpa using he)
  · intro h e he
    exact h e (by simpa using he)

theorem find_arpFold (now cnow : Int) (arp : List ArpRow) (mac : String) :
    regFind (arp.foldl (stepArp now cnow) []) mac =
      (lastArpFor arp mac).map (arpShape now mac) := by
  induction arp using List.reverseRecOn generalizing mac with
  | nil => simp [regFind, lastArpFor, firstArpFor]
  | append_singleton xs x ih =>
    rw [List.foldl_append, List.foldl_cons, List.foldl_nil, lastArpFor_append]
    by_cases hx : x.mac = mac
    · subst hx
      cases hl : lastArpFor xs x.mac with
      | none =>
        have h0 : regFind (xs.foldl (stepArp now cnow) []) x.mac = none := by
          rw [ih]; rw [hl]; rfl
        simp [stepArp_find_eq_none now cnow _ x h0]
      | some a =>
        have h0 : regFind (xs.foldl (stepArp now cnow) []) x.mac =
            some (arpShape now x.mac a) := by
          rw [ih]; rw [hl]; rfl
        rw [stepArp_find_eq_some now cnow _ x _ h0]
        simp [arpShape]
    · rw [stepArp_find_ne now cnow _ x mac hx, ih]
      simp [hx]

theorem find_mergeClients (now cnow : Int) (arp : List ArpRow) (dhcp : List LeaseRow)
    (mac : String) :
    regFind (mergeClients now cnow arp dhcp) mac = mergedModel now cnow arp dhcp mac := by
  induction dhcp using List.reverseRecOn generalizing mac with
  | nil =>
    rw [mergeClients, List.foldl_nil, find_arpFold, mergedModel]
    cases lastArpFor arp mac <;> simp [lastLeaseFor, firstLeaseFor]
  | append_singleton xs x ih =>
    have hstep : mergeClients now cnow arp (xs ++ [x]) =
        stepDhcp now cnow (mergeClients now cnow arp xs) x := by
      rw [mergeClients, mergeClients, List.foldl_append, List.foldl_cons, List.foldl_nil]
    rw [hstep]
    by_cases hx : x.mac = mac
    · subst hx
      have ihx := ih x.mac
      rw [mergedModel] at ihx ⊢
      rw [lastLeaseFor_append]
      simp only [if_pos rfl]
      cases hA : lastArpFor arp x.mac with
      | none =>
        cases hL : lastLeaseFor xs x.mac with
        | none =>
          rw [hA, hL] at ihx
          have h0 : regFind (mergeClients now cnow arp xs) x.mac = none := ihx
          rw [stepDhcp_find_eq_none now cnow _ x h0]
          have hfirst : firstLeaseFor xs x.mac = none := by
            rw [firstLeaseFor_eq_none_iff]
            exact (lastLeaseFor_eq_none_iff xs x.mac).mp hL
          rw [firstLeaseFor_append_none xs x x.mac hfirst]
          simp
        | some l =>
          rw [hA, hL] at ihx
          rw [stepDhcp_find_eq_some now cnow _ x _ ihx]
          obtain ⟨r, hr⟩ : ∃ r, firstLeaseFor xs x.mac = some r := by
            cases hf : firstLeaseFor xs x.mac with
            | none =>
              rw [firstLeaseFor_eq_none_iff] at hf
              rw [← lastLeaseFor_eq_none_iff] at hf
              rw [hf] at hL
              exact absurd hL (by simp)
            | some r => exact ⟨r, rfl⟩
          rw [firstLeaseFor_append_some xs x x.mac r hr, hr]
          simp
      | some a =>
        cases hL : lastLeaseFor xs x.mac with
        | none =>
          rw [hA, hL] at ihx
          rw [stepDhcp_find_eq_some now cnow _ x _ ihx]
          simp [arpShape]
        | some l =>
          rw [hA, hL] at ihx
          rw [stepDhcp_find_eq_some now cnow _ x _ ihx]
          simp
    · rw [stepDhcp_find_ne now cnow _ x mac hx, ih]
      rw [mergedModel, mergedModel, lastLeaseFor_append, if_neg hx]
      cases hf : firstLeaseFor xs mac with
      | none => rw [firstLeaseFor_append_none xs x mac hf, if_neg hx]
      | some r => rw [firstLeaseFor_append_some xs x mac r hf]

theorem arpLoop_eq_filterMap (lines : List String) :
    arpLoop lines = lines.filterMap arpRowSpec := by
  induction lines with
  | nil => rfl
  | cons line rest ih =>
    by_cases h1 : line = "" || hasSubstr line "Address" || hasSubstr line "---"
    · simp [arpLoop, arpRowSpec, h1, ih]
    · by_cases h2 : 4 ≤ (pySplit line).length
      · cases hm : macFind line with
        | none => simp [arpLoop, arpRowSpec, h1, h2, hm, ih]
        | some m => simp [arpLoop, arpRowSpec, h1, h2, hm, ih]
      · simp [arpLoop, arpRowSpec, h1, h2, ih]

theorem dhcpLoop_true_eq (lines : List String) :
    dhcpLoop true lines = dhcpDataRows lines := by
  induction lines with
  | nil => rfl
  | cons line rest ih =>
    by_cases h1 : pyStrip line = "" <;>
      by_cases hA : hasSubstr line "IP address" <;>
      by_cases hB : hasSubstr line "---" <;>
      cases hm : leaseOfLine line <;>
      simp [dhcpLoop, dhcpDataRows, isDhcpMarker, h1, hA, hB, hm, ih]

theorem dhcpLoop_false_eq (lines : List String) :
    dhcpLoop false lines = dhcpDataRows (dhcpPreamble lines) := by
  induction lines with
  | nil => rfl
  | cons line rest ih =>
    by_cases h1 : pyStrip line = "" <;>
      by_cases hA : hasSubstr line "IP address" <;>
      by_cases hB : hasSubstr line "---" <;>
      simp [dhcpLoop, dhcpPreamble, isDhcpMarker, h1, hA, hB, ih, dhcpLoop_true_eq]

theorem mergeClients_flags (now cnow : Int) (arp : List ArpRow) (dhcp : List LeaseRow)
    (mac : String) (c : ClientInfo)
    (h : regFind (mergeClients now cnow arp dhcp) mac = some c) :
    c.in_arp = true ∨ c.has_dhcp_lease = true := by
  rw [find_mergeClients] at h
  unfold mergedModel at h
  cases hA : lastArpFor arp mac <;> cases hL : lastLeaseFor dhcp mac <;>
    rw [hA, hL] at h <;> simp at h <;> rw [← h] <;> simp [arpShape]

/-- Claim C1 (code bug demonstration): when the remote command channel
itself fails on both fetches — connection error or authentication error —
the update cycle does **not** fail: `get_all_clients` absorbs the channel
error in its per-source `except Exception` handlers and the coordinator
callback reports a successful update carrying an empty registry, because
the `except EdgeRouterConnectionError: raise UpdateFailed` handler in
`__init__.py` can never fire.  The claim (and spec §4.3/§7) require a
channel failure to propagate as an update failure. -/
theorem claim1_channel_failure_yields_ok_empty :
    async_update_data 0 1 (Except.error ChannelError.conn) (Except.error ChannelError.conn)
      = UpdateResult.ok []
  ∧ async_update_data 0 1 (Except.error ChannelError.auth) (Except.error ChannelError.auth)
      = UpdateResult.ok [] :=
  ⟨rfl, rfl⟩

/-- Claim C2: for every pair of fetch outcomes, every record in the
registry returned by `get_all_clients` has `in_arp = true` or
`has_dhcp_lease = true`; no record with both provenance flags false is
present. -/
theorem claim2_provenance_flag_invariant (now cnow : Int)
    (arpFetch dhcpFetch : Except ChannelError String) (mac : String) (c : ClientInfo)
    (h : regFind (get_all_clients now cnow arpFetch dhcpFetch) mac = some c) :
    c.in_arp = true ∨ c.has_dhcp_lease = true := by
  cases arpFetch <;> cases dhcpFetch <;>
    exact mergeClients_flags now cnow _ _ mac c h

/-- Witness for C2: a concrete fetch cycle (ARP output with one row, DHCP
channel failed) whose registry record satisfies the invariant. -/
theorem claim2_witness :
    regFind (get_all_clients 5 7 (Except.ok "1.2.3.4 x aa:bb:cc:dd:ee:ff eth0")
        (Except.error ChannelError.conn)) "aa:bb:cc:dd:ee:ff" =
      some { mac := "aa:bb:cc:dd:ee:ff", ip := some "1.2.3.4", interface := some "",
             in_arp := true, last_seen := 5 }
  ∧ (({ mac := "aa:bb:cc:dd:ee:ff", ip := some "1.2.3.4", interface := some "",
        in_arp := true, last_seen := 5 } : ClientInfo).in_arp = true ∨
     ({ mac := "aa:bb:cc:dd:ee:ff", ip := some "1.2.3.4", interface := some "",
        in_arp := true, last_seen := 5 } : ClientInfo).has_dhcp_lease = true) :=
  ⟨by decide, claim2_provenance_flag_invariant 5 7
    (Except.ok "1.2.3.4 x aa:bb:cc:dd:ee:ff eth0") (Except.error ChannelError.conn)
    "aa:bb:cc:dd:ee:ff" _ (by decide)⟩

/-- Counterexample to claim C4 as stated: the line
`"10.0.0.1 aa:bb:cc:dd:ee:ff"` is non-blank, contains no `"Address"`
header text and no dashed rule, and contains a recognizable MAC pattern,
yet the ARP parser emits no row for it (the source additionally requires
at least four whitespace tokens before even looking for a MAC). -/
theorem claim4_counterexample :
    get_arp_table "10.0.0.1 aa:bb:cc:dd:ee:ff" = []
  ∧ (macFind "10.0.0.1 aa:bb:cc:dd:ee:ff").isSome = true
  ∧ "10.0.0.1 aa:bb:cc:dd:ee:ff" ≠ ""
  ∧ hasSubstr "10.0.0.1 aa:bb:cc:dd:ee:ff" "Address" = false
  ∧ hasSubstr "10.0.0.1 aa:bb:cc:dd:ee:ff" "---" = false := by
  refine ⟨by decide, by decide, by decide, by decide, by decide⟩

/-- Claim C4 as amended: a non-blank, non-header, non-dashed line yields
exactly one row — first token as ip, normalised lowercase colon-delimited
MAC, last token as interface exactly when more than four tokens — if and
only if it has **at least four whitespace tokens** and contains a
recognizable MAC; every other line is discarded without error.
`arpRowsSpec` states this line-by-line discipline and the theorem proves
the parser equal to it on every input. -/
theorem claim4_amended_rowspec (output : String) :
    get_arp_table output = arpRowsSpec output :=
  arpLoop_eq_filterMap (pyLines output)

/-- Counterexample to claim C5 as stated.  First input: a dashed rule
line also starts data mode, so a lease is produced although no line
containing `"IP address"` ever occurred — refuting "data rows begin only
after the header line containing the literal column label".  Second
input: after the header, a line containing a recognizable MAC but only
two whitespace tokens yields nothing — refuting "every line containing a
recognizable MAC pattern yields exactly one lease row". -/
theorem claim5_counterexample :
    get_dhcp_leases "---\n10.0.0.9 aa:bb:cc:dd:ee:ff x" =
      [{ ip := "10.0.0.9", mac := "aa:bb:cc:dd:ee:ff", hostname := none, expires := none }]
  ∧ hasSubstr "---" "IP address" = false
  ∧ hasSubstr "10.0.0.9 aa:bb:cc:dd:ee:ff x" "IP address" = false
  ∧ get_dhcp_leases "IP address\n10.0.0.9 aa:bb:cc:dd:ee:ff" = []
  ∧ (macFind "10.0.0.9 aa:bb:cc:dd:ee:ff").isSome = true := by
  refine ⟨by decide, by decide, by decide, by decide, by decide⟩

/-- Claim C5 as amended: blank lines are always skipped; data rows begin
after the first line containing `"IP address"` **or** `"---"`; marker
lines themselves never yield leases; after the preamble, a line yields
exactly one lease row if and only if it has **at least three whitespace
tokens** and contains a recognizable MAC, with the first token as its ip;
everything before the first marker contributes no lease.  `dhcpRowsSpec`
states this discipline and the theorem proves the parser equal to it on
every input, together with the per-line qualification and ip facts. -/
theorem claim5_amended_marker_structure :
    (∀ output, get_dhcp_leases output = dhcpRowsSpec output)
  ∧ (∀ line, (leaseOfLine line).isSome =
       (decide (3 ≤ (pySplit line).length) && (macFind line).isSome))
  ∧ (∀ line r, leaseOfLine line = some r → r.ip = (pySplit line).headD "") := by
  refine ⟨fun output => dhcpLoop_false_eq (pyLines output), fun line => ?_, fun line r h => ?_⟩
  · unfold leaseOfLine
    by_cases h3 : 3 ≤ (pySplit line).length
    · cases hm : macFind line <;> simp [h3, hm]
    · simp [h3]
  · unfold leaseOfLine at h
    by_cases h3 : 3 ≤ (pySplit line).length
    · rw [if_pos h3] at h
      cases hm : macFind line <;> rw [hm] at h
      · exact absurd h (by simp)
      · cases h
        rfl
    · rw [if_neg h3] at h
      exact absurd h (by simp)

/-- Witness for C5 (amended): a concrete qualifying data line, its parsed
lease, and the ip-from-first-token fact obtained by applying the amended
theorem. -/
theorem claim5_witness :
    leaseOfLine "10.0.0.9 aa:bb:cc:dd:ee:ff x" =
      some { ip := "10.0.0.9", mac := "aa:bb:cc:dd:ee:ff", hostname := none, expires := none }
  ∧ ({ ip := "10.0.0.9", mac := "aa:bb:cc:dd:ee:ff", hostname := none,
       expires := none } : LeaseRow).ip =
      (pySplit "10.0.0.9 aa:bb:cc:dd:ee:ff x").headD "" :=
  ⟨by decide, claim5_amended_marker_structure.2.2 "10.0.0.9 aa:bb:cc:dd:ee:ff x" _ (by decide)⟩

/-- Claim C3: for a MAC present in both row lists of one fetch cycle, the
merged record takes ip and interface from its (last) ARP row — nothing
from DHCP overwrites an ARP-sourced ip — hostname and lease expiration
from its (last) DHCP row, and carries both provenance flags; for a MAC
present only in DHCP rows the record's ip comes from its (first) lease
row.  `mergeClients` is the merge `get_all_clients` performs on the
fetched row lists. -/
theorem claim3_merge_precedence (now cnow : Int) (arp : List ArpRow) (dhcp : List LeaseRow)
    (mac : String) :
    (∀ a l c, lastArpFor arp mac = some a → lastLeaseFor dhcp mac = some l →
      regFind (mergeClients now cnow arp dhcp) mac = some c →
      c.ip = some a.ip ∧ c.interface = some a.interface ∧
      c.hostname = l.hostname ∧ c.lease_expires = l.expires ∧
      c.in_arp = true ∧ c.has_dhcp_lease = true) ∧
    (∀ l c, lastArpFor arp mac = none → firstLeaseFor dhcp mac = some l →
      regFind (mergeClients now cnow arp dhcp) mac = some c →
      c.ip = some l.ip ∧ c.in_arp = false ∧ c.has_dhcp_lease = true) := by
  constructor
  · intro a l c hA hL hc
    rw [find_mergeClients] at hc
    unfold mergedModel at hc
    rw [hA, hL] at hc
    cases hc
    simp
  · intro l c hA hF hc
    rw [find_mergeClients] at hc
    unfold mergedModel at hc
    cases hL : lastLeaseFor dhcp mac with
    | none =>
      rw [lastLeaseFor_eq_none_iff] at hL
      rw [← firstLeaseFor_eq_none_iff] at hL
      rw [hL] at hF
      exact absurd hF (by simp)
    | some l' =>
      rw [hA, hL] at hc
      cases hc
      simp [hF]

/-- Witness for C3: a MAC with one ARP row and one DHCP row merges with
ARP ip/interface, DHCP hostname/expiration and both flags. -/
theorem claim3_witness :
    lastArpFor [arpRowA] "aa:bb:cc:dd:ee:ff" = some arpRowA
  ∧ lastLeaseFor [leaseRowA] "aa:bb:cc:dd:ee:ff" = some leaseRowA
  ∧ regFind (mergeClients 5 9 [arpRowA] [leaseRowA]) "aa:bb:cc:dd:ee:ff" = some clientBoth
  ∧ (clientBoth.ip = some arpRowA.ip ∧ clientBoth.interface = some arpRowA.interface ∧
     clientBoth.hostname = leaseRowA.hostname ∧ clientBoth.lease_expires = leaseRowA.expires ∧
     clientBoth.in_arp = true ∧ clientBoth.has_dhcp_lease = true) :=
  ⟨by decide, by decide, by decide,
    (claim3_merge_precedence 5 9 [arpRowA] [leaseRowA] "aa:bb:cc:dd:ee:ff").1
      arpRowA leaseRowA clientBoth (by decide) (by decide) (by decide)⟩

/-- Claim C6: for a DHCP data line whose lease row exists, the hostname
is the last whitespace token of the stripped remainder after the MAC
match exactly when that remainder has at least three tokens and the token
is not the `"?"` sentinel, and the expiration is the (up to) 19-character
slice of the remainder starting at the first `YYYY/MM/DD` date match,
absent when no date occurs. -/
theorem claim6_hostname_expiry_heuristics (line : String) (m : String × String)
    (hm : macFind line = some m) (r : LeaseRow) (hr : leaseOfLine line = some r) :
    r.hostname =
      (if 3 ≤ (pySplit (pyStrip m.2)).length ∧ (pySplit (pyStrip m.2)).getLastD "" ≠ "?"
       then some ((pySplit (pyStrip m.2)).getLastD "") else none)
  ∧ r.expires = (dateSliceFrom (pyStrip m.2).data).map String.mk := by
  unfold leaseOfLine at hr
  by_cases h3 : 3 ≤ (pySplit line).length
  · rw [if_pos h3, hm] at hr
    cases hr
    constructor
    · by_cases hl : 3 ≤ (pySplit (pyStrip m.2)).length
      · by_cases hq : (pySplit (pyStrip m.2)).getLastD "" = "?" <;>
          simp [hl, hq]
      · simp [hl]
    · rfl
  · rw [if_neg h3] at hr
    exact absurd hr (by simp)

/-- Witness for C6: a full lease line with date, pool and hostname
fields (`leaseLineA`, with `leaseLineARest` the remainder after the MAC
match and `leaseLineARow` the parsed row). -/
theorem claim6_witness :
    macFind leaseLineA = some ("aa:bb:cc:dd:ee:ff", leaseLineARest)
  ∧ leaseOfLine leaseLineA = some leaseLineARow
  ∧ (leaseLineARow.hostname =
      (if 3 ≤ (pySplit (pyStrip leaseLineARest)).length ∧
          (pySplit (pyStrip leaseLineARest)).getLastD "" ≠ "?"
       then some ((pySplit (pyStrip leaseLineARest)).getLastD "") else none)
     ∧ leaseLineARow.expires = (dateSliceFrom (pyStrip leaseLineARest).data).map String.mk) :=
  ⟨by decide, by decide,
    claim6_hostname_expiry_heuristics leaseLineA ("aa:bb:cc:dd:ee:ff", leaseLineARest)
      (by decide) leaseLineARow (by decide)⟩

/-- Claim C7: in the registry of one fetch cycle, a record's `last_seen`
equals the cycle timestamp `now` exactly for MACs with a fresh ARP
observation; a record created or updated from DHCP rows alone keeps its
construction-time default stamp `cnow`, never refreshed by the DHCP
sighting. -/
theorem claim7_last_seen_only_from_arp (now cnow : Int) (arp : List ArpRow)
    (dhcp : List LeaseRow) (mac : String) (c : ClientInfo)
    (h : regFind (mergeClients now cnow arp dhcp) mac = some c) :
    ((∃ e ∈ arp, e.mac = mac) → c.last_seen = now) ∧
    ((∀ e ∈ arp, e.mac ≠ mac) → c.last_seen = cnow) := by
  rw [find_mergeClients] at h
  unfold mergedModel at h
  cases hA : lastArpFor arp mac with
  | none =>
    cases hL : lastLeaseFor dhcp mac with
    | none =>
      rw [hA, hL] at h
      exact absurd h (by simp)
    | some l =>
      rw [hA, hL] at h
      cases h
      refine ⟨fun hex => ?_, fun _ => rfl⟩
      obtain ⟨e, he, hemac⟩ := hex
      rw [lastArpFor_eq_none_iff] at hA
      exact absurd hemac (hA e he)
  | some a =>
    have harp : ¬∀ e ∈ arp, e.mac ≠ mac := by
      intro hall
      rw [← lastArpFor_eq_none_iff] at hall
      rw [hall] at hA
      cases hA
    cases hL : lastLeaseFor dhcp mac with
    | none =>
      rw [hA, hL] at h
      cases h
      exact ⟨fun _ => rfl, fun hall => absurd hall harp⟩
    | some l =>
      rw [hA, hL] at h
      cases h
      exact ⟨fun _ => rfl, fun hall => absurd hall harp⟩

/-- Witness for C7: in a cycle with `now = 50` whose records are
constructed at `cnow = 51`, a DHCP-only MAC keeps the construction stamp
51, not the cycle stamp. -/
theorem claim7_witness :
    regFind (mergeClients 50 51 [arpRowA] [leaseRowB]) "11:22:33:44:55:66" =
      some clientDhcpOnly
  ∧ (∀ e ∈ [arpRowA], e.mac ≠ "11:22:33:44:55:66")
  ∧ clientDhcpOnly.last_seen = 51 :=
  ⟨by decide, by decide,
    (claim7_last_seen_only_from_arp 50 51 [arpRowA] [leaseRowB] "11:22:33:44:55:66"
      clientDhcpOnly (by decide)).2 (by decide)⟩

/-- Claim C8: with the tracker's MAC absent from the current ARP snapshot
(no record, or a record with `in_arp = false`) and a recorded last-seen
`t`, `is_connected` returns true exactly when the grace window is
strictly positive and `now - t` is strictly below it; with a zero window
absence is immediately reported absent, and exactly at the boundary
`now = t + grace` the client flips to absent.  When the snapshot has
`in_arp = true` the tracker is connected regardless. -/
theorem claim8_grace_window (client? : Option ClientInfo) (t grace now : Int)
    (habs : ∀ c, client? = some c → c.in_arp = false) :
    is_connected client? (some t) grace now = (decide (0 < grace) && decide (now - t < grace))
  ∧ is_connected client? (some t) 0 now = false
  ∧ is_connected client? (some t) grace (t + grace) = false
  ∧ (∀ c ls n, c.in_arp = true → is_connected (some c) ls grace n = true) := by
  have hmain : ∀ g n2, is_connected client? (some t) g n2 =
      (decide (0 < g) && decide (n2 - t < g)) := by
    intro g n2
    cases hc : client? with
    | none =>
      unfold is_connected
      by_cases hg : 0 < g <;> simp [hg]
    | some c =>
      have hF := habs c hc
      unfold is_connected
      by_cases hg : 0 < g <;> simp [hF, hg]
  refine ⟨hmain grace now, ?_, ?_, ?_⟩
  · rw [hmain 0 now]
    simp
  · rw [hmain grace (t + grace)]
    have h3 : t + grace - t = grace := by ring
    rw [h3]
    simp
  · intro c ls n hc
    simp [is_connected, hc]

/-- Witness for C8: a DHCP-only record (never in ARP), last seen at 0,
grace window 60, queried at 10 — inside the window, hence connected. -/
theorem claim8_witness :
    (∀ c, (some clientDhcpOnly : Option ClientInfo) = some c → c.in_arp = false)
  ∧ is_connected (some clientDhcpOnly) (some 0) 60 10 =
      (decide ((0 : Int) < 60) && decide ((10 : Int) - 0 < 60)) :=
  ⟨fun c hc => by cases hc; rfl,
    (claim8_grace_window (some clientDhcpOnly) 0 60 10 (fun c hc => by cases hc; rfl)).1⟩

/-- Claim C9 (code bug demonstration): a MAC appearing only in the DHCP
table merges to `in_arp = false, has_dhcp_lease = true`, is classified
`dhcp_inactive` and contributes nothing to the connected-clients count —
all as claimed — **but** its lease-only sighting does drive the present
state: the record's construction-time `last_seen` default (here 51) seeds
the tracker's carried last-seen (device_tracker.py line 100), so with a
60-second grace window the never-in-ARP client reports connected at time
61.  The claim (and spec §4.4) say a DHCP-only sighting never by itself
drives the present state. -/
theorem claim9_dhcp_only_drives_presence :
    regFind (mergeClients 50 51 [] [leaseRowB]) "11:22:33:44:55:66" = some clientDhcpOnly
  ∧ clientDhcpOnly.in_arp = false
  ∧ clientDhcpOnly.has_dhcp_lease = true
  ∧ connectionType clientDhcpOnly = some "dhcp_inactive"
  ∧ connectedClientsCount (mergeClients 50 51 [] [leaseRowB]) = 0
  ∧ is_connected (some clientDhcpOnly) (trackerInitLastSeen clientDhcpOnly) 60 61 = true := by
  refine ⟨by decide, by decide, by decide, by decide, by decide, by decide⟩

/-- Claim C10: `ClientInfo.name` returns the hostname when it is set
(non-empty, Python truthiness) and is not the `"?"` sentinel, otherwise
the ip when set, otherwise the MAC; a sentinel hostname is never used as
the display name. -/
theorem claim10_name_cascade (c : ClientInfo) :
    (∀ h, c.hostname = some h → h ≠ "" → h ≠ "?" → ClientInfo.name c = h)
  ∧ ((c.hostname = none ∨ c.hostname = some "" ∨ c.hostname = some "?") →
      (∀ i, c.ip = some i → i ≠ "" → ClientInfo.name c = i)
      ∧ ((c.ip = none ∨ c.ip = some "") → ClientInfo.name c = c.mac)) := by
  constructor
  · intro h hh hne hq
    unfold ClientInfo.name
    rw [hh]
    simp [hne, hq]
  · intro hcase
    constructor
    · intro i hi hine
      unfold ClientInfo.name
      rcases hcase with h | h | h <;> rw [h, hi] <;> simp [hine]
    · intro hip
      unfold ClientInfo.name
      rcases hcase with h | h | h <;> rcases hip with h2 | h2 <;> rw [h, h2] <;> simp

/-- Witness for C10: a record whose hostname is the sentinel `"?"` is
displayed under its ip, not under the sentinel. -/
theorem claim10_witness :
    clientSentinel.hostname = some "?"
  ∧ clientSentinel.ip = some "9.9.9.9"
  ∧ ClientInfo.name clientSentinel = "9.9.9.9" :=
  ⟨rfl, rfl,
    ((claim10_name_cascade clientSentinel).2 (Or.inr (Or.inr rfl))).1 "9.9.9.9" rfl (by decide)⟩

end EdgeRouter
